import Mathlib

/-!
Verification of the campus-assistant chat backend.

The repository's core logic is the `/chat` route handler: an ordered
keyword-matching intent classifier followed by per-domain analyzers and a
reply synthesizer.  Two handler variants exist in the source; the
feature-complete one (the one the specification describes) lives in
`src/unnamed/part_002`, the simpler one in `src/routes/chat.route.js`.

We embed the handler shallowly:
  * JS strings become `String`, message matching (`String.prototype.includes`)
    becomes substring containment over `List Char`;
  * JS numbers become `ℚ` (floats used by the handler are exactly
    representable: 0.75, integer thresholds) or `ℕ`/`ℤ` for counts and dates;
  * possibly-`undefined` values become `Option`; JS truthiness (`x || y`,
    `x > 0` on `undefined`) is modelled by explicit combinators whose
    `none`/`0`/`""` cases follow JavaScript's falsy rules;
  * replies are modelled at content level: a `Reply` constructor per
    (intent, sub-case) template, carrying exactly the data values the
    template interpolates (the fixed prose around them is not modelled);
  * the route-level `try/catch` becomes `Except String`; a JS `TypeError`
    (e.g. `undefined.toFixed(2)`) is `.error`;
  * `return res.json(...)` early returns inside a branch are modelled by an
    `early : Bool` flag on the branch result: early replies carry no
    metadata block, mirroring the source.
-/

/-- Decidable equality for `Except`, used to settle concrete handler runs
by `decide`. -/
instance {ε α : Type} [DecidableEq ε] [DecidableEq α] :
    DecidableEq (Except ε α) := fun a b =>
  match a, b with
  | .ok x, .ok y =>
    if h : x = y then isTrue (by rw [h]) else isFalse (by simpa using h)
  | .error x, .error y =>
    if h : x = y then isTrue (by rw [h]) else isFalse (by simpa using h)
  | .ok _, .error _ => isFalse (by simp)
  | .error _, .ok _ => isFalse (by simp)

/-! ## String helpers (JS `includes`, `toLowerCase`, `trim`, regex `a.*b`) -/

/-- Whether `p` is a prefix of `s` (character lists). -/
def startsWithL : List Char → List Char → Bool
  | _, [] => true
  | [], _ :: _ => false
  | c :: s, p :: ps => c == p && startsWithL s ps

/-- Whether `p` occurs as a contiguous substring of `s`. -/
def containsL : List Char → List Char → Bool
  | [], p => startsWithL [] p
  | s@(_ :: t), p => startsWithL s p || containsL t p

/-- JS `s.includes(pat)` on strings. -/
def strContains (s pat : String) : Bool :=
  containsL s.data pat.data

/-- The suffix of `s` following the first occurrence of `p`, if any. -/
def afterFirstL : List Char → List Char → Option (List Char)
  | s, p =>
    if startsWithL s p then some (s.drop p.length)
    else match s with
      | [] => none
      | _ :: t => afterFirstL t p

/-- JS regex `a.*b` tested against `s`: an occurrence of `a` followed
(somewhere later) by an occurrence of `b`. -/
def seqContains (s a b : String) : Bool :=
  match afterFirstL s.data a.data with
  | some rest => containsL rest b.data
  | none => false

/-- JS `toLowerCase`, restricted to the per-character lowering Lean provides
(agrees with JS on ASCII, which is all the classifier's keywords use). -/
def lowerStr (s : String) : String :=
  String.mk (s.data.map Char.toLower)

/-- ASCII whitespace, for modelling JS `trim`. -/
def isWsChar (c : Char) : Bool :=
  c == ' ' || c == '\t' || c == '\n' || c == '\r'

/-- JS `s.trim()`. -/
def trimStr (s : String) : String :=
  String.mk (((s.data.dropWhile isWsChar).reverse.dropWhile isWsChar).reverse)

/-! ## JS value combinators (`||`, comparisons against `undefined`) -/

/-- JS `a || b` on possibly-undefined numbers: `0` (and `undefined`) falls
through to `b`. -/
def jsOrQ (a b : Option ℚ) : Option ℚ :=
  match a with
  | some x => if x = 0 then b else some x
  | none => b

/-- JS `a || b` on possibly-undefined strings: `""` (and `undefined`) falls
through to `b`. -/
def jsOrStr (a b : Option String) : Option String :=
  match a with
  | some s => if s = "" then b else some s
  | none => b

/-- JS `x < c` where `x` may be `undefined` (`undefined < c` is false). -/
def jsLtQ (x : Option ℚ) (c : ℚ) : Bool :=
  match x with
  | some v => decide (v < c)
  | none => false

/-- JS `x > c` on a possibly-undefined natural (`undefined > c` is false). -/
def jsGtN (x : Option ℕ) (c : ℕ) : Bool :=
  match x with
  | some v => decide (c < v)
  | none => false

/-- JS `x > c` on a possibly-undefined number. -/
def jsGtQ (x : Option ℚ) (c : ℚ) : Bool :=
  match x with
  | some v => decide (c < v)
  | none => false

/-! ## A stable sort that mirrors JS `Array.prototype.sort` with a comparator.
Insertion sort keeps the original order of elements the comparator ties,
like the (stable) JS sort. -/

/-- Insert `x` after all already-placed elements `y` with `le y x`. -/
def insertLe (le : α → α → Bool) (x : α) : List α → List α
  | [] => [x]
  | y :: t => if le y x then y :: insertLe le x t else x :: y :: t

/-- Stable sort by the boolean relation `le`. -/
def sortLe (le : α → α → Bool) : List α → List α
  | [] => []
  | x :: t => insertLe le x (sortLe le t)

/-- Lexicographic order on character lists: JS default string comparison. -/
def charListLe : List Char → List Char → Bool
  | [], _ => true
  | _ :: _, [] => false
  | a :: s, b :: t => if a = b then charListLe s t else decide (a < b)

/-- JS default (string) comparison used by comparator-less `sort()`. -/
def strLe (a b : String) : Bool :=
  charListLe a.data b.data

/-! ## Intent classifier (src/unnamed/part_002, the ordered if/else chain) -/

/-- The intent labels the handler can emit (plus `ERROR`, produced only by
the route-level catch handler). -/
inductive Intent where
  | NAME_QUERY
  | EXPENSE_MONTHLY
  | EXPENSE_INSIGHTS
  | ATTENDANCE_INSIGHTS
  | ACADEMIC_INSIGHTS
  | ASSIGNMENT_PLANNING
  | CALENDAR_MANAGEMENT
  | TIMETABLE_ANALYSIS
  | GREETING
  | GRATITUDE
  | GUIDANCE
  | ERROR
  deriving DecidableEq, Repr

/-- Name-query predicate (part_002 lines 259-265). -/
def namePred (lm : String) : Bool :=
  strContains lm "what is my name" ||
  strContains lm "who am i" ||
  strContains lm "do you know my name" ||
  strContains lm "what\x27s my name" ||
  strContains lm "whats my name"

/-- Monthly-expense predicate (part_002 lines 271-274). -/
def expenseMonthlyPred (lm : String) : Bool :=
  strContains lm "this month" &&
  (strContains lm "spend" || strContains lm "expense")

/-- Expense-insights predicate (part_002 lines 302-310). -/
def expenseInsightsPred (lm : String) : Bool :=
  strContains lm "expense" || strContains lm "spend" ||
  strContains lm "spent" || strContains lm "money" ||
  strContains lm "budget" || strContains lm "cost" ||
  strContains lm "expensive" || strContains lm "saving"

/-- Attendance predicate (part_002 lines 352-356). -/
def attendancePred (lm : String) : Bool :=
  strContains lm "attendance" || strContains lm "present" ||
  strContains lm "absent" || strContains lm "percentage"

/-- Academic predicate (part_002 lines 484-496). -/
def academicPred (lm : String) : Bool :=
  strContains lm "cgpa" || strContains lm "gpa" ||
  strContains lm "grade" || strContains lm "sgpa" ||
  strContains lm "semester" || strContains lm "marks" ||
  strContains lm "performance" || strContains lm "result" ||
  strContains lm "academic" || strContains lm "progress" ||
  strContains lm "improvement" || strContains lm "trend"

/-- Assignment predicate (part_002 lines 613-618). -/
def assignmentPred (lm : String) : Bool :=
  strContains lm "assignment" || strContains lm "homework" ||
  strContains lm "deadline" || strContains lm "due" ||
  strContains lm "project"

/-- Calendar predicate (part_002 lines 673-679). -/
def calendarPred (lm : String) : Bool :=
  strContains lm "calendar" || strContains lm "event" ||
  strContains lm "exam" || strContains lm "holiday" ||
  strContains lm "important date" || strContains lm "meeting"

/-- Timetable predicate (part_002 lines 771-817), keywords in source order. -/
def timetablePred (lm : String) : Bool :=
  strContains lm "class" || strContains lm "lecture" ||
  strContains lm "timetable" || strContains lm "schedule" ||
  strContains lm "tomorrow" || strContains lm "today" ||
  strContains lm "monday" || strContains lm "tuesday" ||
  strContains lm "wednesday" || strContains lm "thursday" ||
  strContains lm "friday" || strContains lm "saturday" ||
  strContains lm "sunday" ||
  strContains lm "free day" || strContains lm "off day" ||
  strContains lm "day off" ||
  strContains lm "week" || strContains lm "weekly" ||
  strContains lm "busy" || strContains lm "packed" ||
  strContains lm "workload" || strContains lm "work load" ||
  strContains lm "how busy" || strContains lm "how packed" ||
  strContains lm "am i busy" || strContains lm "am i too busy" ||
  strContains lm "am i packed" ||
  strContains lm "is my week busy" || strContains lm "is my week packed" ||
  strContains lm "overall load" ||
  strContains lm "busiest day" || strContains lm "most busy" ||
  strContains lm "which day is busiest" ||
  strContains lm "what is my busiest day" ||
  strContains lm "when am i busiest"

/-- Greeting predicate (part_002 lines 1012-1016): substring containment of
"hi"/"hello"/"hey", or an empty (trimmed) message.  Lowercasing preserves
whitespace, so we test emptiness on the lowercased message. -/
def greetingPred (lm : String) : Bool :=
  strContains lm "hi" || strContains lm "hello" ||
  strContains lm "hey" || trimStr lm == ""

/-- Gratitude predicate (part_002 lines 1053-1056). -/
def gratitudePred (lm : String) : Bool :=
  strContains lm "thank" || strContains lm "thanks" ||
  strContains lm "appreciate"

/-- The strictly ordered classifier chain of part_002: the first predicate
that holds fixes the intent; `GUIDANCE` when none match.  Takes the already
lowercased message. -/
def classify (lm : String) : Intent :=
  if namePred lm then .NAME_QUERY
  else if expenseMonthlyPred lm then .EXPENSE_MONTHLY
  else if expenseInsightsPred lm then .EXPENSE_INSIGHTS
  else if attendancePred lm then .ATTENDANCE_INSIGHTS
  else if academicPred lm then .ACADEMIC_INSIGHTS
  else if assignmentPred lm then .ASSIGNMENT_PLANNING
  else if calendarPred lm then .CALENDAR_MANAGEMENT
  else if timetablePred lm then .TIMETABLE_ANALYSIS
  else if greetingPred lm then .GREETING
  else if gratitudePred lm then .GRATITUDE
  else .GUIDANCE

/-- Classifier on the raw (sanitized) message: the handler lowercases first. -/
def classifyMessage (msg : String) : Intent :=
  classify (lowerStr msg)


/-! ## Data model (request bundle, part_002 lines 151-161 destructuring) -/

/-- A timetable class entry; every field may be absent. -/
structure ClassEntry where
  name : Option String
  subject : Option String
  time : Option String
  startTime : Option String
  endTime : Option String
  deriving DecidableEq, Repr

/-- Per-subject attendance record. -/
structure SubjectRec where
  attended : Option ℕ
  held : Option ℕ
  percentage : Option ℚ
  deriving DecidableEq, Repr

/-- Attendance summary.  `subjects = []` covers both an absent and an empty
`subjects` object (both are "no per-subject data" in the source). -/
structure AttendanceSummary where
  totalHeld : Option ℕ
  totalAttended : Option ℕ
  percentage : Option ℚ
  subjects : List (String × SubjectRec)
  deriving DecidableEq, Repr

/-- A semester record; the score may sit under `sgpa`, `gpa` or `score`. -/
structure SemesterRecord where
  sgpa : Option ℚ
  gpa : Option ℚ
  score : Option ℚ
  semester : Option String
  name : Option String
  deriving DecidableEq, Repr

/-- Expense summary. -/
structure ExpenseSummary where
  total : Option ℚ
  thisMonth : Option ℚ
  categories : Option (List (String × ℚ))
  deriving DecidableEq, Repr

/-- JS `Object.keys(expenses).length > 0`, over the modelled fields. -/
def ExpenseSummary.hasAnyKey (e : ExpenseSummary) : Bool :=
  e.total.isSome || e.thisMonth.isSome || e.categories.isSome

/-- A calendar mark.  `date` is the parsed date as a (whole) day number
since the epoch; `none` models a missing or unparseable date. -/
structure CalendarMark where
  date : Option ℤ
  categoryName : Option String
  deriving DecidableEq, Repr

/-- The request bundle after the handler's destructuring defaults.  An absent
`attendance`/`expenses` key defaults to `{}` (a record of `none`s wrapped in
`some`); `none` here models an explicit JS `null`, which the source's
`!attendance` / `!expenses` guards treat differently from `{}`.
Assignment keys are ISO date strings, lexicographically ordered exactly as
their day numbers, so we carry the parsed day number (ℤ) as the key. -/
structure Bundle where
  message : String
  userFirstName : Option String
  assignments : List (ℤ × ℕ)
  timetable : List (String × List ClassEntry)
  cgpa : List SemesterRecord
  calendarMarks : List CalendarMark
  attendance : Option AttendanceSummary
  expenses : Option ExpenseSummary
  deriving DecidableEq, Repr

/-- The default attendance object `{}` produced by destructuring. -/
def emptyAttendance : AttendanceSummary := ⟨none, none, none, []⟩

/-- The default expenses object `{}` produced by destructuring. -/
def emptyExpenses : ExpenseSummary := ⟨none, none, none⟩

/-- A fully-absent semester record (used only as an impossible default for
`headD`/`getLastD` on lists the source has already checked non-empty). -/
def mkSem : SemesterRecord := ⟨none, none, none, none, none⟩

/-! ## Time utilities (part_002 lines 34-46, 630-669, 688-767)

All instants are milliseconds since the epoch; a date-only ISO string parses
to midnight, i.e. `86400000 * d` for a whole day number `d`. -/

/-- Milliseconds per day. -/
def msPerDay : ℤ := 86400000

/-- The computation `Math.ceil((new Date(date) - now) / (1000*60*60*24))` (part_002 line 632
and the analogous calendar computations). -/
def daysUntilMs (dueMs : ℤ) (nowMs : ℚ) : ℤ :=
  ⌈((dueMs : ℚ) - nowMs) / (msPerDay : ℚ)⌉

/-- The week filter `daysUntil >= 0 && daysUntil <= 7` (part_002 line 633). -/
def dueThisWeek (dueMs : ℤ) (nowMs : ℚ) : Bool :=
  decide (0 ≤ daysUntilMs dueMs nowMs) && decide (daysUntilMs dueMs nowMs ≤ 7)

/-- Result of a JS array method call on a receiver array: the returned array
and the receiver's contents after the call (JS `sort` mutates the receiver,
`filter` allocates a fresh array). -/
structure ArrayOp (α : Type) where
  result : List α
  after : List α
  deriving DecidableEq, Repr

/-- JS `arr.filter(p)`: fresh result, receiver untouched. -/
def jsFilter (p : α → Bool) (arr : List α) : ArrayOp α :=
  ⟨arr.filter p, arr⟩

/-- JS `arr.sort(cmp)`: sorts in place and returns the receiver. -/
def jsSortInPlace (le : α → α → Bool) (arr : List α) : ArrayOp α :=
  ⟨sortLe le arr, sortLe le arr⟩

/-- Validity-and-future filter of `getFutureDates` (part_002 lines 39-44):
keep items with a parseable date `≥` today's midnight. -/
def futureMarkPred (todayMs : ℤ) (it : CalendarMark) : Bool :=
  match it.date with
  | some d => decide (todayMs ≤ msPerDay * d)
  | none => false

/-- Comparator `new Date(a.date) - new Date(b.date)` (part_002 line 45);
only applied after the validity filter, where dates are present. -/
def markDateLe (a b : CalendarMark) : Bool :=
  decide (a.date.getD 0 ≤ b.date.getD 0)

/-- The helper `getFutureDates` (part_002 lines 34-46): filter to valid future dates,
then sort the *filtered copy* ascending.  Returns the function's result and
the contents of the caller's `items` array after the call. -/
def getFutureDates (todayMs : ℤ) (items : List CalendarMark) :
    List CalendarMark × List CalendarMark :=
  let filtered := jsFilter (futureMarkPred todayMs) items
  let sorted := jsSortInPlace markDateLe filtered.result
  (sorted.result, filtered.after)

/-- The statement `const sortedDates = calendarMarks.sort()` in the simpler handler
(chat.route.js line 350): comparator-less sort over (string) marks, in
place.  Returns the sorted result and the contents of the request's
`calendarMarks` array after the statement. -/
def chatRouteSortedDates (calendarMarks : List String) :
    List String × List String :=
  let s := jsSortInPlace strLe calendarMarks
  (s.result, s.after)

/-! ## Weekly pattern analysis (part_002 lines 209-256) -/

/-- The helper `normalizeClassTime` (part_002 lines 209-218): JS truthiness on the
string fields (empty string is falsy). -/
def normalizeClassTime (cls : ClassEntry) : ClassEntry :=
  if (jsOrStr cls.startTime none).isSome && (jsOrStr cls.endTime none).isSome then
    cls
  else
    match jsOrStr cls.time none with
    | some t =>
      if strContains t "-" then
        let parts := (t.splitOn "-").map trimStr
        { cls with startTime := some (parts.headD ""),
                   endTime := some ((parts.drop 1).headD "") }
      else cls
    | none => cls

/-- The helper `getClassesForDay` (part_002 lines 221-224). -/
def getClassesForDay (tt : List (String × List ClassEntry)) (i : ℕ) :
    List ClassEntry :=
  (((tt.lookup ("day_" ++ toString i)).getD []).map normalizeClassTime)

/-- The accumulator of `analyzeWeeklyPattern`.  `lightestCount` starts at
JS `Infinity`, modelled by `⊤ : ℕ∞`. -/
structure WeekAnalysis where
  busiestDay : Option ℕ
  busiestCount : ℕ
  lightestDay : Option ℕ
  lightestCount : ℕ∞
  totalClasses : ℕ
  daysWithClasses : ℕ
  deriving DecidableEq

/-- One iteration of the day loop (part_002 lines 235-249), in source
order: accumulate totals, then the busiest check, then the lightest check. -/
def weekStep (s : WeekAnalysis) (p : ℕ × ℕ) : WeekAnalysis :=
  let s1 := { s with totalClasses := s.totalClasses + p.2,
                     daysWithClasses :=
                       s.daysWithClasses + (if 0 < p.2 then 1 else 0) }
  let s2 := if s1.busiestCount < p.2 then
              { s1 with busiestDay := some p.1, busiestCount := p.2 }
            else s1
  if (p.2 : ℕ∞) < s2.lightestCount ∧ 0 < p.2 then
    { s2 with lightestDay := some p.1, lightestCount := (p.2 : ℕ∞) }
  else s2

/-- The initial accumulator (part_002 lines 228-233). -/
def initWeek : WeekAnalysis := ⟨none, 0, none, ⊤, 0, 0⟩

/-- The `(day, classCount)` pairs the loop visits, in scan order 0..6. -/
def weekPairs (tt : List (String × List ClassEntry)) : List (ℕ × ℕ) :=
  (List.range 7).map (fun i => (i, (getClassesForDay tt i).length))

/-- The analyzer `analyzeWeeklyPattern` (part_002 lines 227-256), including the final
`Infinity` fix-up that reports the lightest day as "none". -/
def analyzeWeeklyPattern (tt : List (String × List ClassEntry)) : WeekAnalysis :=
  let a := (weekPairs tt).foldl weekStep initWeek
  if a.lightestCount = ⊤ then
    { a with lightestDay := none, lightestCount := 0 }
  else a

/-! ## Grade score resolution and trend math (part_002 lines 500-609) -/

/-- Score resolution `sem.sgpa || sem.gpa || sem.score` (part_002 lines 521, 529, 549-551,
570, 587, 598): JS `||`, so a present but zero higher-priority score falls
through.  `none` is JS `undefined`. -/
def resolveScore (r : SemesterRecord) : Option ℚ :=
  jsOrQ (jsOrQ r.sgpa r.gpa) r.score

/-- Resolve every semester's score; `none` as soon as one record resolves to
`undefined` (the source's per-record `.toFixed(2)` throws there). -/
def resolveAll : List SemesterRecord → Option (List ℚ)
  | [] => some []
  | r :: t =>
    match resolveScore r, resolveAll t with
    | some v, some vs => some (v :: vs)
    | _, _ => none

/-- The five trend bands (part_002 lines 555-560). -/
inductive TrendBand where
  | strong
  | slight
  | drop
  | decline
  | stable
  deriving DecidableEq, Repr

/-- The trend classification chain (part_002 lines 556-560). -/
def trendBand (d : ℚ) : TrendBand :=
  if 3/10 < d then .strong
  else if 0 < d then .slight
  else if d < -(3/10) then .drop
  else if d < 0 then .decline
  else .stable

/-- A rank that orders the bands from worst to best, for stating that the
classification is monotone in `d`. -/
def TrendBand.rank : TrendBand → ℕ
  | .drop => 0
  | .decline => 1
  | .stable => 2
  | .slight => 3
  | .strong => 4

/-- Naming fallback chain of `latest.semester || latest.name` with the
positional default (part_002 lines
522, 588). -/
def semesterNameOf (r : SemesterRecord) (n : ℕ) : String :=
  (jsOrStr r.semester r.name).getD ("Semester " ++ toString n)

/-! ## Reply content

One constructor per (intent, sub-case) template of part_002, carrying the
values the template interpolates.  Fixed prose is not modelled; neither is
the probabilistic `addressMaybe` name prefix, which changes only the prose. -/

/-- The spending-tone bands of the monthly-expense reply
(part_002 lines 282-297). -/
inductive SpendBand where
  | high
  | moderate
  | low
  deriving DecidableEq, Repr

/-- The attendance-tone bands (part_002 lines 462-477). -/
inductive AttBand where
  | below
  | acceptable
  | good
  deriving DecidableEq, Repr

/-- Timetable sub-case replies (part_002 lines 847-1008). -/
inductive TTReply where
  | busiest (day : ℕ) (count : ℕ)
  | busiestNoClasses
  | busiestEven
  | workloadFree
  | workload (total : ℕ) (days : ℕ) (busiest : Option (ℕ × ℕ))
  | tomorrow (names : List String)
  | tomorrowFree
  | today (names : List String)
  | todayFree
  | onDay (day : ℕ) (names : List String)
  | onDayFree (day : ℕ)
  | freeDays (days : List ℕ)
  | noFreeDays
  | week (rows : List (ℕ × ℕ)) (todayIdx : ℕ)
  | weekEmpty
  | fallbackToday (names : List String)
  | fallbackFree
  deriving DecidableEq, Repr

/-- Reply content for every branch of the part_002 handler. -/
inductive Reply where
  | nameQuery (userName : String)
  | expenseMonthlyNoData
  | expenseMonthly (amount : ℚ) (band : SpendBand)
  | expenseInsightsNoData
  | expenseInsights (total thisMonth : ℚ)
      (topCategories : List (String × ℚ × ℚ))
  | attendanceNoData
  | attendancePerSubjectNoData
  | attendancePerSubject (rows : List (String × ℚ × ℕ × ℕ))
      (overallPct : Option ℚ) (overallAttended overallHeld : Option ℕ)
  | attendanceLowestBelow (subject : String) (pct : ℚ) (needed : Option ℤ)
  | attendanceLowestAbove (subject : String) (pct : ℚ)
  | attendanceAllAbove
  | attendanceOverall (pct : Option ℚ) (attended held : Option ℕ)
      (band : AttBand) (neededLine : Option ℤ) (breakdownHint : Bool)
  | academicNoData
  | academicList (scores : List ℚ) (cgpaAvg : Option ℚ)
  | academicTrendSingle (score : ℚ)
  | academicTrend (count : ℕ) (first latest diff : ℚ) (band : TrendBand)
      (progression : Option (List ℚ))
  | academicLatestSingle (semName : String) (score : ℚ)
  | academicLatestMulti (semName : String) (score : ℚ) (cgpaAvg : Option ℚ)
  | assignmentsNone
  | assignmentsWeek (rows : List (ℤ × ℕ × ℤ))
  | assignmentsWeekEmpty
  | assignmentsNext (date : ℤ) (count : ℕ) (daysUntil : ℤ)
  | assignmentsNextNoDate
  | assignmentsDefault (totalCount : ℕ) (date : ℤ) (count : ℕ) (daysUntil : ℤ)
  | calendarEmpty
  | calendarHolidayNone
  | calendarHoliday (date : ℤ) (daysUntil : ℤ)
  | calendarExamNone
  | calendarExam (date : ℤ) (daysUntil : ℤ)
  | calendarNextNone
  | calendarNext (date : ℤ) (category : Option String) (daysUntil : ℤ)
  | calendarAllEmpty
  | calendarList (rows : List (ℤ × Option String × ℤ))
  | timetableReply (t : TTReply)
  | greeting (morning afternoon : Bool) (todayCount assignmentCount : ℕ)
      (attendanceLine : Option (Option ℚ)) (expenseLine : Option ℚ)
  | gratitude
  | guidance
  | errorApology
  deriving DecidableEq, Repr

/-! ## Expense branches (part_002 lines 277-348) -/

/-- The monthly-expense branch (part_002 lines 277-298). -/
def expenseMonthlyBranch (e : Option ExpenseSummary) : Reply :=
  match e with
  | none => .expenseMonthlyNoData
  | some ex =>
    match ex.thisMonth with
    | none => .expenseMonthlyNoData
    | some v =>
      .expenseMonthly v
        (if 10000 < v then .high else if 5000 < v then .moderate else .low)

/-- The expense-insights branch (part_002 lines 314-348): defaults of 0/{},
categories sorted descending by amount (stable), top 2 surfaced with their
share of the total (0 when the total is 0). -/
def expenseInsightsBranch (e : Option ExpenseSummary) : Reply :=
  match e with
  | none => .expenseInsightsNoData
  | some ex =>
    if ex.hasAnyKey then
      let total := ex.total.getD 0
      let thisMonth := ex.thisMonth.getD 0
      let cats := ex.categories.getD []
      let sorted := (sortLe (fun x y => decide (y.2 ≤ x.2)) cats).take 2
      .expenseInsights total thisMonth
        (sorted.map (fun c =>
          (c.1, c.2, if 0 < total then c.2 / total * 100 else 0)))
    else .expenseInsightsNoData

/-! ## Attendance branch (part_002 lines 358-481) -/

/-- Per-subject sub-case predicate (part_002 lines 370-378). -/
def perSubjectPred (lm : String) : Bool :=
  strContains lm "per subject" || strContains lm "by subject" ||
  strContains lm "each subject" || strContains lm "subject wise" ||
  strContains lm "subject-wise" || strContains lm "subject breakdown" ||
  strContains lm "breakdown by subject"

/-- The which-subject-is-lowest sub-case predicate (part_002 lines 413-417),
including the two regexes `/subject.*low|low.*subject/` and
`/subject.*below|below.*subject/`. -/
def whichSubjectPred (lm : String) : Bool :=
  strContains lm "which subject" || strContains lm "what subject" ||
  seqContains lm "subject" "low" || seqContains lm "low" "subject" ||
  seqContains lm "subject" "below" || seqContains lm "below" "subject"

/-- The computation `max(0, ceil(held * 0.75) - attended)` on possibly-undefined operands;
`none` models the JS `NaN` the subtraction produces then. -/
def neededFor (held attended : Option ℕ) : Option ℤ :=
  match held, attended with
  | some h, some a => some (max 0 (⌈(h : ℚ) * (3/4)⌉ - (a : ℤ)))
  | _, _ => none

/-- The lowest-subject scan (part_002 lines 427-436): fold with
`lowestPercent` starting at 101, updating on `percent < lowestPercent &&
data.held > 0`, where `percent` is `data.percentage || 0`. -/
def lowestSubjectFold (entries : List (String × SubjectRec)) :
    Option String × ℚ :=
  entries.foldl
    (fun acc e =>
      let percent := (jsOrQ e.2.percentage (some 0)).getD 0
      if percent < acc.2 ∧ jsGtN e.2.held 0 then (some e.1, percent) else acc)
    (none, 101)

/-- The "which subject is lowest" sub-case body (part_002 lines 419-454). -/
def whichSubjectReply (a : AttendanceSummary) : Reply :=
  if a.subjects.isEmpty then .attendancePerSubjectNoData
  else
    match lowestSubjectFold a.subjects with
    | (some nm, pct) =>
      if pct < 75 then
        let data := (a.subjects.lookup nm).getD ⟨none, none, none⟩
        .attendanceLowestBelow nm pct (neededFor data.held data.attended)
      else .attendanceLowestAbove nm pct
    | (none, _) => .attendanceAllAbove

/-- The per-subject breakdown sub-case body (part_002 lines 379-411):
subjects sorted ascending by `percentage || 0` (stable), each row carrying
`percentage || 0`, `attended || 0`, `held || 0`. -/
def perSubjectReply (a : AttendanceSummary) : Reply :=
  if a.subjects.isEmpty then .attendancePerSubjectNoData
  else
    let sorted := sortLe
      (fun x y =>
        decide ((jsOrQ x.2.percentage (some 0)).getD 0 ≤
                (jsOrQ y.2.percentage (some 0)).getD 0))
      a.subjects
    .attendancePerSubject
      (sorted.map (fun e =>
        (e.1, (jsOrQ e.2.percentage (some 0)).getD 0,
         (e.2.attended).getD 0, (e.2.held).getD 0)))
      a.percentage a.totalAttended a.totalHeld

/-- The overall-attendance sub-case body (part_002 lines 456-480).  The
needed-classes line appears only when `needed > 0` (a `NaN` needed — `none`
here — never passes that test); the subject-breakdown hint only in the
below-75 band when per-subject data exists. -/
def overallAttendanceReply (a : AttendanceSummary) : Reply :=
  let needed := neededFor a.totalHeld a.totalAttended
  if jsLtQ a.percentage 75 then
    .attendanceOverall a.percentage a.totalAttended a.totalHeld .below
      (match needed with
       | some n => if 0 < n then some n else none
       | none => none)
      (!a.subjects.isEmpty)
  else if jsLtQ a.percentage 85 then
    .attendanceOverall a.percentage a.totalAttended a.totalHeld .acceptable
      none false
  else
    .attendanceOverall a.percentage a.totalAttended a.totalHeld .good
      none false

/-- The attendance branch (part_002 lines 358-481).  Returns the reply and
whether the source takes the early `return res.json({intent, reply})`
(lines 361-363).  The guard `!attendance || attendance.totalHeld === 0`
fires for `null` attendance or an explicit `totalHeld: 0` — a strict
equality that an absent `totalHeld` (JS `undefined`) does not satisfy. -/
def attendanceBranch (lm : String) (att : Option AttendanceSummary) :
    Reply × Bool :=
  match att with
  | none => (.attendanceNoData, true)
  | some a =>
    if a.totalHeld == some 0 then (.attendanceNoData, true)
    else if perSubjectPred lm then (perSubjectReply a, false)
    else if whichSubjectPred lm then (whichSubjectReply a, false)
    else (overallAttendanceReply a, false)

/-! ## Academic branch (part_002 lines 498-609) -/

/-- Semester-wise listing sub-case predicate (part_002 lines 507-515). -/
def listGradesPred (lm : String) : Bool :=
  strContains lm "all" || strContains lm "semester wise" ||
  strContains lm "semester-wise" || strContains lm "each semester" ||
  strContains lm "breakdown" || strContains lm "list" ||
  strContains lm "show my grades" || strContains lm "show grades"

/-- Trend sub-case predicate (part_002 lines 542-546). -/
def trendPred (lm : String) : Bool :=
  strContains lm "trend" || strContains lm "progress" ||
  strContains lm "improvement" || strContains lm "change"

/-- The trend sub-case (part_002 lines 548-579).  With more than one
semester: resolve first and latest scores (an unresolvable score makes the
source's `.toFixed(2)` throw a TypeError), classify `latest - first`, and
list the per-semester progression when at most 4 semesters exist (that
listing resolves every record, so it too can throw).  With one semester:
report the single score, no trend. -/
def academicTrendBranch (cgpa : List SemesterRecord) : Except String Reply :=
  if 1 < cgpa.length then
    match resolveScore (cgpa.headD mkSem),
          resolveScore (cgpa.getLastD mkSem) with
    | some f, some l =>
      let d := l - f
      if cgpa.length ≤ 4 then
        match resolveAll cgpa with
        | some scores =>
          .ok (.academicTrend cgpa.length f l d (trendBand d) (some scores))
        | none => .error "TypeError"
      else .ok (.academicTrend cgpa.length f l d (trendBand d) none)
    | _, _ => .error "TypeError"
  else
    match resolveScore (cgpa.headD mkSem) with
    | some v => .ok (.academicTrendSingle v)
    | none => .error "TypeError"

/-- The semester-wise listing sub-case (part_002 lines 517-536): every
record's score resolved (throwing on an unresolvable one), with the
average shown only for more than one semester. -/
def academicListBranch (cgpa : List SemesterRecord) : Except String Reply :=
  match resolveAll cgpa with
  | some scores =>
    .ok (.academicList scores
      (if 1 < cgpa.length then some (scores.sum / (cgpa.length : ℚ))
       else none))
  | none => .error "TypeError"

/-- The default (latest SGPA) sub-case (part_002 lines 585-608).  Only the
latest record's score must resolve; an unresolvable earlier record makes
the average `NaN` (modelled `none`) without throwing. -/
def academicDefaultBranch (cgpa : List SemesterRecord) : Except String Reply :=
  let latest := cgpa.getLastD mkSem
  match resolveScore latest with
  | none => .error "TypeError"
  | some v =>
    let semName := semesterNameOf latest cgpa.length
    if cgpa.length = 1 then .ok (.academicLatestSingle semName v)
    else
      .ok (.academicLatestMulti semName v
        ((resolveAll cgpa).map (fun s => s.sum / (cgpa.length : ℚ))))

/-- The academic branch (part_002 lines 498-609): empty data first, then
the ordered sub-cases listing > trend > default. -/
def academicBranch (lm : String) (cgpa : List SemesterRecord) :
    Except String Reply :=
  if cgpa.isEmpty then .ok .academicNoData
  else if listGradesPred lm then academicListBranch cgpa
  else if trendPred lm then academicTrendBranch cgpa
  else academicDefaultBranch cgpa

/-! ## Assignment branch (part_002 lines 620-669) -/

/-- The assignment branch.  `assignmentCount` is the sum of the assignment
counts (computed once near the top of the handler, line 205); keys are
sorted ascending (ISO strings sort like their day numbers).  Zero pending
assignments takes the early return (lines 622-625). -/
def assignmentsBranch (lm : String) (now : ℚ)
    (assignmentCount : ℕ) (assignments : List (ℤ × ℕ)) : Reply × Bool :=
  if assignmentCount = 0 then (.assignmentsNone, true)
  else
    let sorted := sortLe (fun a b => decide (a.1 ≤ b.1)) assignments
    if strContains lm "week" then
      let weekRows := sorted.filter (fun p => dueThisWeek (msPerDay * p.1) now)
      if weekRows.isEmpty then (.assignmentsWeekEmpty, false)
      else
        (.assignmentsWeek
          (weekRows.map (fun p => (p.1, p.2, daysUntilMs (msPerDay * p.1) now))),
         false)
    else if strContains lm "next" || strContains lm "upcoming" then
      match sorted with
      | p :: _ => (.assignmentsNext p.1 p.2 (daysUntilMs (msPerDay * p.1) now), false)
      | [] => (.assignmentsNextNoDate, false)
    else
      match sorted with
      | p :: _ =>
        (.assignmentsDefault assignmentCount p.1 p.2
          (daysUntilMs (msPerDay * p.1) now), false)
      | [] => (.assignmentsNextNoDate, false)

/-! ## Calendar branch (part_002 lines 681-767) -/

/-- JS category test, lowercased `categoryName` (empty for absent) against a
substring. -/
def categoryHas (d : CalendarMark) (pat : String) : Bool :=
  strContains (lowerStr ((jsOrStr d.categoryName none).getD "")) pat

/-- The calendar branch.  `todayMs` is today's midnight (the handler's
`today.setHours(0,0,0,0)`); empty marks take the early return (lines
683-686).  Sub-cases: holiday > exam > next/upcoming > full listing. -/
def calendarBranch (lm : String) (now : ℚ) (todayMs : ℤ)
    (marks : List CalendarMark) : Reply × Bool :=
  if marks.isEmpty then (.calendarEmpty, true)
  else
    let fut := (getFutureDates todayMs marks).1
    if strContains lm "holiday" then
      let hs := fut.filter (fun d =>
        categoryHas d "holiday" || categoryHas d "break" ||
        categoryHas d "vacation")
      match hs with
      | [] => (.calendarHolidayNone, false)
      | h :: _ =>
        (.calendarHoliday (h.date.getD 0)
          (daysUntilMs (msPerDay * h.date.getD 0) now), false)
    else if strContains lm "exam" then
      let es := fut.filter (fun d =>
        categoryHas d "exam" || categoryHas d "test")
      match es with
      | [] => (.calendarExamNone, false)
      | e :: _ =>
        (.calendarExam (e.date.getD 0)
          (daysUntilMs (msPerDay * e.date.getD 0) now), false)
    else if strContains lm "next" || strContains lm "upcoming" then
      match fut with
      | [] => (.calendarNextNone, false)
      | d :: _ =>
        (.calendarNext (d.date.getD 0) d.categoryName
          (daysUntilMs (msPerDay * d.date.getD 0) now), false)
    else
      match fut with
      | [] => (.calendarAllEmpty, false)
      | _ =>
        (.calendarList
          (fut.map (fun d =>
            (d.date.getD 0, d.categoryName,
             daysUntilMs (msPerDay * d.date.getD 0) now))),
         false)

/-! ## Timetable branch (part_002 lines 819-1008) -/

/-- The fallback chain `c.name || c.subject` with a default label, for the
class listings. -/
def classNames (l : List ClassEntry) : List String :=
  l.map (fun c => (jsOrStr c.name c.subject).getD "class")

/-- Busiest-day sub-case predicate (part_002 lines 847-853). -/
def busiestDayPred (lm : String) : Bool :=
  strContains lm "busiest day" || strContains lm "most busy" ||
  strContains lm "which day is busiest" ||
  strContains lm "what is my busiest day" ||
  strContains lm "when am i busiest"

/-- Workload sub-case predicate (part_002 lines 870-882). -/
def workloadPred (lm : String) : Bool :=
  strContains lm "busy" || strContains lm "packed" ||
  strContains lm "workload" || strContains lm "work load" ||
  strContains lm "how busy" || strContains lm "how packed" ||
  strContains lm "am i busy" || strContains lm "am i too busy" ||
  strContains lm "am i packed" ||
  strContains lm "is my week busy" || strContains lm "is my week packed" ||
  strContains lm "overall load"

/-- Free-day sub-case predicate (part_002 lines 956-960). -/
def freeDayPred (lm : String) : Bool :=
  strContains lm "free" || strContains lm "off day" ||
  strContains lm "day off" || strContains lm "which day"

/-- The day-name scan (part_002 lines 830-842), in object-literal order. -/
def specificDayOf (lm : String) : Option ℕ :=
  (([("monday", 0), ("tuesday", 1), ("wednesday", 2), ("thursday", 3),
     ("friday", 4), ("saturday", 5), ("sunday", 6)] :
     List (String × ℕ)).find?
    (fun p => strContains lm p.1)).map Prod.snd

/-- The timetable branch (part_002 lines 819-1008), sub-cases in source
order: busiest day, workload, tomorrow, today, a specific weekday, free
days, the weekly listing, and the fallback (today's classes). -/
def timetableBranch (lm : String) (tt : List (String × List ClassEntry))
    (todayIdx : ℕ) : TTReply :=
  let analysis := analyzeWeeklyPattern tt
  let todayClasses := getClassesForDay tt todayIdx
  let tomorrowClasses := getClassesForDay tt ((todayIdx + 1) % 7)
  if busiestDayPred lm then
    match analysis.busiestDay with
    | some d => .busiest d analysis.busiestCount
    | none =>
      if analysis.totalClasses = 0 then .busiestNoClasses else .busiestEven
  else if workloadPred lm then
    if analysis.totalClasses = 0 then .workloadFree
    else
      .workload analysis.totalClasses analysis.daysWithClasses
        (analysis.busiestDay.map (fun d => (d, analysis.busiestCount)))
  else if strContains lm "tomorrow" then
    if tomorrowClasses.isEmpty then .tomorrowFree
    else .tomorrow (classNames tomorrowClasses)
  else if strContains lm "today" then
    if todayClasses.isEmpty then .todayFree
    else .today (classNames todayClasses)
  else
    match specificDayOf lm with
    | some d =>
      let classes := getClassesForDay tt d
      if classes.isEmpty then .onDayFree d else .onDay d (classNames classes)
    | none =>
      if freeDayPred lm then
        let free := (List.range 7).filter
          (fun i => (getClassesForDay tt i).isEmpty)
        if free.isEmpty then .noFreeDays else .freeDays free
      else if strContains lm "week" || strContains lm "weekly" then
        if 0 < analysis.totalClasses then
          .week ((List.range 7).map
            (fun i => (i, (getClassesForDay tt i).length))) todayIdx
        else .weekEmpty
      else
        if todayClasses.isEmpty then .fallbackFree
        else .fallbackToday (classNames todayClasses)

/-! ## Greeting branch (part_002 lines 1018-1050) -/

/-- The greeting branch.  The parts array dereferences
`attendance.totalHeld` and `expenses.thisMonth` without a null guard, so a
`null` attendance or expenses object throws here (modelled `.error`).  The
attendance line appears when `totalHeld > 0` (carrying the raw, possibly
undefined, percentage); the expense line when `thisMonth > 0`. -/
def greetingBranch (hour : ℕ) (tt : List (String × List ClassEntry))
    (todayIdx : ℕ) (assignmentCount : ℕ)
    (att : Option AttendanceSummary) (exp2 : Option ExpenseSummary) :
    Except String Reply :=
  match att, exp2 with
  | some a, some e =>
    .ok (.greeting (decide (hour < 12)) (decide (12 ≤ hour ∧ hour < 17))
      (getClassesForDay tt todayIdx).length assignmentCount
      (if jsGtN a.totalHeld 0 then some a.percentage else none)
      (match e.thisMonth with
       | some v => if 0 < v then some v else none
       | none => none))
  | _, _ => .error "TypeError"

/-! ## The handler: dispatch, envelope, catch (part_002 lines 114-1106) -/

/-- The metadata block of the response envelope (part_002 lines 1084-1095). -/
structure Metadata where
  timestamp : ℚ
  userName : String
  hasExpenses : Bool
  hasAttendance : Bool
  hasTimetable : Bool
  hasAssignments : Bool
  hasCalendar : Bool
  hasCgpa : Bool
  deriving DecidableEq, Repr

/-- The `dataUsed` booleans plus timestamp and user name (lines 1084-1095).
`hasExpenses` is `!!expenses && Object.keys(expenses).length > 0`;
`hasAttendance` is `!!attendance && attendance.totalHeld > 0` (false on an
undefined `totalHeld`). -/
def mkMetadata (now : ℚ) (userName : String) (b : Bundle)
    (assignmentCount : ℕ) : Metadata where
  timestamp := now
  userName := userName
  hasExpenses := match b.expenses with
    | none => false
    | some e => e.hasAnyKey
  hasAttendance := match b.attendance with
    | none => false
    | some a => jsGtN a.totalHeld 0
  hasTimetable := !b.timetable.isEmpty
  hasAssignments := decide (0 < assignmentCount)
  hasCalendar := !b.calendarMarks.isEmpty
  hasCgpa := !b.cgpa.isEmpty

/-- A successful handler response: intent, reply content, and the metadata
block — absent on the three early-return paths. -/
structure ChatResponse where
  intent : Intent
  reply : Reply
  metadata : Option Metadata
  deriving DecidableEq, Repr

/-- The body of the route handler (part_002 lines 151-1096): lowercase the
message, resolve the user name, compute the assignment count, then run the
classifier chain with each intent's branch.  `now` is the single wall-clock
read (ms since epoch), `todayMs` today's midnight, `todayIdx` the
Monday-indexed weekday, `hour` the local hour.  `.error` is a thrown
exception reaching the route's catch. -/
def respond (now : ℚ) (todayMs : ℤ) (todayIdx hour : ℕ) (b : Bundle) :
    Except String ChatResponse :=
  let lm := lowerStr b.message
  let userName := (jsOrStr b.userFirstName none).getD "there"
  let assignmentCount := (b.assignments.map Prod.snd).sum
  let meta := mkMetadata now userName b assignmentCount
  if namePred lm then .ok ⟨.NAME_QUERY, .nameQuery userName, some meta⟩
  else if expenseMonthlyPred lm then
    .ok ⟨.EXPENSE_MONTHLY, expenseMonthlyBranch b.expenses, some meta⟩
  else if expenseInsightsPred lm then
    .ok ⟨.EXPENSE_INSIGHTS, expenseInsightsBranch b.expenses, some meta⟩
  else if attendancePred lm then
    let r := attendanceBranch lm b.attendance
    .ok ⟨.ATTENDANCE_INSIGHTS, r.1, if r.2 then none else some meta⟩
  else if academicPred lm then
    (academicBranch lm b.cgpa).map
      (fun r => ⟨.ACADEMIC_INSIGHTS, r, some meta⟩)
  else if assignmentPred lm then
    let r := assignmentsBranch lm now assignmentCount b.assignments
    .ok ⟨.ASSIGNMENT_PLANNING, r.1, if r.2 then none else some meta⟩
  else if calendarPred lm then
    let r := calendarBranch lm now todayMs b.calendarMarks
    .ok ⟨.CALENDAR_MANAGEMENT, r.1, if r.2 then none else some meta⟩
  else if timetablePred lm then
    .ok ⟨.TIMETABLE_ANALYSIS,
      .timetableReply (timetableBranch lm b.timetable todayIdx), some meta⟩
  else if greetingPred lm then
    (greetingBranch hour b.timetable todayIdx assignmentCount
        b.attendance b.expenses).map
      (fun r => ⟨.GREETING, r, some meta⟩)
  else if gratitudePred lm then .ok ⟨.GRATITUDE, .gratitude, some meta⟩
  else .ok ⟨.GUIDANCE, .guidance, some meta⟩

/-- An HTTP-level response of the route. -/
structure HttpResponse where
  status : ℕ
  intent : Intent
  reply : Reply
  errorDetail : Option String
  metadata : Option Metadata
  deriving DecidableEq, Repr

/-- The route including its `try/catch` boundary (part_002 lines 1081-1105):
a successful body is a 200 with the computed envelope; any thrown error
becomes a 500 with intent `ERROR`, the generic apologetic reply, and the
underlying message only when `debug` (i.e. not production) is set. -/
def handleChat (debug : Bool) (now : ℚ) (todayMs : ℤ) (todayIdx hour : ℕ)
    (b : Bundle) : HttpResponse :=
  match respond now todayMs todayIdx hour b with
  | .ok r => ⟨200, r.intent, r.reply, none, r.metadata⟩
  | .error e => ⟨500, .ERROR, .errorApology, if debug then some e else none, none⟩

/-! ## Claim theorems -/

/-- C1 (counterexample): the claim quantifies over *every* message whose
lowercased text contains "this month" with "spend"/"expense", but the
name-query predicate sits above the monthly-expense predicate in the chain,
so a message matching both classifies as `NAME_QUERY`, not
`EXPENSE_MONTHLY`. -/
theorem c1_counterexample :
    strContains (lowerStr "what is my name and how much did I spend this month")
      "this month" = true ∧
    strContains (lowerStr "what is my name and how much did I spend this month")
      "spend" = true ∧
    classifyMessage "what is my name and how much did I spend this month" =
      .NAME_QUERY ∧
    classifyMessage "what is my name and how much did I spend this month" ≠
      .EXPENSE_MONTHLY := by
  decide

/-- C1 (amended): for every message whose lowercased text contains
"this month" together with "spend" or "expense", the classifier never
returns `EXPENSE_INSIGHTS`, and returns `EXPENSE_MONTHLY` whenever the
(higher-priority) name-query predicate does not match; in particular
"how much did I spend this month" classifies as `EXPENSE_MONTHLY`. -/
theorem c1_expense_monthly_precedence (lm : String)
    (hm : strContains lm "this month" = true)
    (hs : strContains lm "spend" = true ∨ strContains lm "expense" = true) :
    classify lm ≠ .EXPENSE_INSIGHTS ∧
    (namePred lm = false → classify lm = .EXPENSE_MONTHLY) ∧
    classifyMessage "how much did I spend this month" = .EXPENSE_MONTHLY := by
  have hem : expenseMonthlyPred lm = true := by
    unfold expenseMonthlyPred
    rcases hs with h | h <;> simp [hm, h]
  refine ⟨?_, ?_, by decide⟩
  · unfold classify
    by_cases hn : namePred lm <;> simp [hn, hem]
  · intro hn
    unfold classify
    simp [hn, hem]

/-- C1 (witness): the amended claim at the concrete message
"how much did i spend this month". -/
theorem c1_witness :
    classify "how much did i spend this month" ≠ .EXPENSE_INSIGHTS ∧
    (namePred "how much did i spend this month" = false →
      classify "how much did i spend this month" = .EXPENSE_MONTHLY) ∧
    classifyMessage "how much did I spend this month" = .EXPENSE_MONTHLY :=
  c1_expense_monthly_precedence "how much did i spend this month"
    (by decide) (Or.inl (by decide))

/-- C10: greeting detection is plain substring containment: when none of the
higher-priority predicates (name query, monthly expense, expense insights,
attendance, academic, assignment, calendar, timetable) matches, a lowercased
message containing "hi", "hello" or "hey" anywhere — also inside a longer
word — classifies as `GREETING`, not `GUIDANCE`. -/
theorem c10_greeting_substring (lm : String)
    (h1 : namePred lm = false) (h2 : expenseMonthlyPred lm = false)
    (h3 : expenseInsightsPred lm = false) (h4 : attendancePred lm = false)
    (h5 : academicPred lm = false) (h6 : assignmentPred lm = false)
    (h7 : calendarPred lm = false) (h8 : timetablePred lm = false)
    (hg : strContains lm "hi" = true ∨ strContains lm "hello" = true ∨
          strContains lm "hey" = true) :
    classify lm = .GREETING := by
  have hgp : greetingPred lm = true := by
    unfold greetingPred
    rcases hg with h | h | h <;> simp [h]
  unfold classify
  simp [h1, h2, h3, h4, h5, h6, h7, h8, hgp]

/-- C10 (witness): "nothing" contains the letters "hi", matches no
higher-priority predicate, and classifies as `GREETING`. -/
theorem c10_witness : classify "nothing" = .GREETING :=
  c10_greeting_substring "nothing" (by decide) (by decide) (by decide)
    (by decide) (by decide) (by decide) (by decide) (by decide)
    (Or.inl (by decide))

/-- C7 (counterexample): the claimed first-present-wins resolution fails:
JS `||` skips a *falsy* present value, so a record with `sgpa: 0` and
`gpa: 5` resolves to 5, not to the present `sgpa` value 0. -/
theorem c7_counterexample :
    (SemesterRecord.mk (some 0) (some 5) none none none).sgpa = some 0 ∧
    resolveScore ⟨some 0, some 5, none, none, none⟩ = some 5 ∧
    resolveScore ⟨some 0, some 5, none, none, none⟩ ≠ some 0 := by
  decide

/-- C7 (amended): score resolution is first-*truthy*-wins across
`sgpa > gpa > score`: a present non-zero `sgpa` is used regardless of the
other keys; `gpa` is consulted when `sgpa` is absent or zero; `score` when
both higher-priority keys are absent or zero. -/
theorem c7_first_truthy_wins (r : SemesterRecord) :
    (∀ v : ℚ, r.sgpa = some v → v ≠ 0 → resolveScore r = some v) ∧
    ((r.sgpa = none ∨ r.sgpa = some 0) →
      ∀ w : ℚ, r.gpa = some w → w ≠ 0 → resolveScore r = some w) ∧
    ((r.sgpa = none ∨ r.sgpa = some 0) → (r.gpa = none ∨ r.gpa = some 0) →
      resolveScore r = r.score) := by
  refine ⟨?_, ?_, ?_⟩
  · intro v hv hne
    unfold resolveScore jsOrQ
    simp [hv, hne]
  · intro hs w hw hne
    unfold resolveScore jsOrQ
    rcases hs with h | h <;> simp [h, hw, hne]
  · intro hs hg
    rcases hs with h | h <;> rcases hg with h2 | h2 <;>
      simp [resolveScore, jsOrQ, h, h2]

/-- C7 (witness): the amended claim at a record carrying a non-zero `sgpa`
alongside a `gpa`, and at the counterexample-shaped record. -/
theorem c7_witness :
    resolveScore ⟨some 7, some 3, some 1, none, none⟩ = some 7 ∧
    resolveScore ⟨some 0, some 5, none, none, none⟩ = some 5 := by
  refine ⟨(c7_first_truthy_wins ⟨some 7, some 3, some 1, none, none⟩).1 7 rfl
    (by norm_num), ?_⟩
  exact (c7_first_truthy_wins ⟨some 0, some 5, none, none, none⟩).2.1
    (Or.inr rfl) 5 rfl (by norm_num)

/-- C9 (counterexample): in the simpler handler variant
(chat.route.js line 350), `calendarMarks.sort()` sorts the request's array
in place: after the statement the bundle's `calendarMarks` is the sorted
array, not the caller's original. -/
theorem c9_counterexample :
    (chatRouteSortedDates ["b", "a"]).2 ≠ ["b", "a"] ∧
    (chatRouteSortedDates ["b", "a"]).2 = ["a", "b"] := by
  decide

/-- C9 (amended): the feature-complete handler (part_002) does not mutate
the request bundle: `getFutureDates` filters into a fresh array and sorts
that copy, leaving `calendarMarks` untouched; the simpler variant's
comparator-less `sort()` is the lone in-place mutation. -/
theorem c9_sort_operates_on_copies (todayMs : ℤ) (items : List CalendarMark)
    (marks : List String) :
    (getFutureDates todayMs items).2 = items ∧
    (jsFilter (futureMarkPred todayMs) items).after = items ∧
    (getFutureDates todayMs items).1 =
      sortLe markDateLe (items.filter (futureMarkPred todayMs)) ∧
    (chatRouteSortedDates marks).2 = sortLe strLe marks :=
  ⟨rfl, rfl, rfl, rfl⟩

/-- C6 (failing input): an attendance query on a bundle with no attendance
field at all (the destructuring default `{}`) does *not* take the no-data
short circuit: the guard tests `attendance.totalHeld === 0`, which is false
for an undefined `totalHeld`, so the overall-attendance reply is built from
undefined values (all `none` here) and lands in the "good" tone band —
instead of the "no data yet" reply the spec requires. -/
theorem c6_missing_attendance_not_guarded :
    respond 0 0 0 0
      ⟨"attendance", none, [], [], [], [], some emptyAttendance,
       some emptyExpenses⟩ =
      .ok ⟨.ATTENDANCE_INSIGHTS,
        .attendanceOverall none none none .good none false,
        some ⟨0, "there", false, false, false, false, false, false⟩⟩ ∧
    attendanceBranch "attendance" (some emptyAttendance) ≠
      (.attendanceNoData, true) := by
  with_unfolding_all decide

/-- C8: "days until due" as computed by the assignment branch equals the
calendar-day difference `dueDay - floor(now in days)` whenever the due date
is a date-only instant (midnight, `msPerDay * d`), i.e. the ceiling of the
elapsed-time quotient collapses to calendar-day granularity; and the
"due this week" filter holds exactly when `0 ≤ daysUntil ≤ 7`.  The closed
conjunct runs the assignment branch itself on a week query. -/
theorem c8_assignment_windowing (d : ℤ) (now : ℚ) :
    daysUntilMs (msPerDay * d) now = d - ⌊now / (msPerDay : ℚ)⌋ ∧
    (dueThisWeek (msPerDay * d) now = true ↔
      0 ≤ d - ⌊now / (msPerDay : ℚ)⌋ ∧ d - ⌊now / (msPerDay : ℚ)⌋ ≤ 7) ∧
    assignmentsBranch "what is due this week" 0 3 [(3, 2), (9, 1)] =
      (.assignmentsWeek [(3, 2, 3)], false) := by
  have hms : ((msPerDay : ℚ)) ≠ 0 := by norm_num [msPerDay]
  have key : daysUntilMs (msPerDay * d) now = d - ⌊now / (msPerDay : ℚ)⌋ := by
    unfold daysUntilMs
    have harg : (((msPerDay * d : ℤ) : ℚ) - now) / (msPerDay : ℚ) =
        -(now / (msPerDay : ℚ)) + (d : ℚ) := by
      field_simp
      ring
    rw [harg, Int.ceil_add_int, Int.ceil_neg]
    ring
  refine ⟨key, ?_, by with_unfolding_all decide⟩
  unfold dueThisWeek
  rw [key]
  simp

/-- C8 (witness): the theorem at the concrete due day 3 and `now = 0`. -/
theorem c8_witness :
    daysUntilMs (msPerDay * 3) 0 = 3 - ⌊(0 : ℚ) / (msPerDay : ℚ)⌋ ∧
    (dueThisWeek (msPerDay * 3) 0 = true ↔
      0 ≤ 3 - ⌊(0 : ℚ) / (msPerDay : ℚ)⌋ ∧ 3 - ⌊(0 : ℚ) / (msPerDay : ℚ)⌋ ≤ 7) :=
  ⟨(c8_assignment_windowing 3 0).1, (c8_assignment_windowing 3 0).2.1⟩

/-- C2: for a well-formed attendance summary, the overall-attendance reply:
below 75% it flags the threshold and the needed-classes figure is
`max(0, ceil(held*0.75) - attended)` (never negative, surfaced exactly when
positive — and always positive when the percentage is consistent with
attended/held); between 75% and 85% the acceptable tone with no needed
figure; at 85% or above the good tone with no needed figure.  The closed
conjunct is example scenario 2: message "attendance" with
`{totalHeld: 40, totalAttended: 28, percentage: 70}` gives intent
`ATTENDANCE_INSIGHTS`, the 70% (28 of 40) figures, the below-threshold
flag, and `needed = 2`. -/
theorem c2_attendance_thresholds (h a : ℕ) (p : ℚ)
    (subs : List (String × SubjectRec)) (hh : 0 < h) :
    0 ≤ max 0 (⌈(h : ℚ) * (3/4)⌉ - (a : ℤ)) ∧
    (p < 75 → overallAttendanceReply ⟨some h, some a, some p, subs⟩ =
      .attendanceOverall (some p) (some a) (some h) .below
        (if 0 < max 0 (⌈(h : ℚ) * (3/4)⌉ - (a : ℤ)) then
          some (max 0 (⌈(h : ℚ) * (3/4)⌉ - (a : ℤ))) else none)
        (!subs.isEmpty)) ∧
    (p < 75 → p = 100 * (a : ℚ) / (h : ℚ) →
      0 < max 0 (⌈(h : ℚ) * (3/4)⌉ - (a : ℤ))) ∧
    (75 ≤ p → p < 85 → overallAttendanceReply ⟨some h, some a, some p, subs⟩ =
      .attendanceOverall (some p) (some a) (some h) .acceptable none false) ∧
    (85 ≤ p → overallAttendanceReply ⟨some h, some a, some p, subs⟩ =
      .attendanceOverall (some p) (some a) (some h) .good none false) ∧
    respond 0 0 0 0
      ⟨"attendance", none, [], [], [], [],
       some ⟨some 40, some 28, some 70, []⟩, some emptyExpenses⟩ =
      .ok ⟨.ATTENDANCE_INSIGHTS,
        .attendanceOverall (some 70) (some 28) (some 40) .below (some 2) false,
        some ⟨0, "there", false, true, false, false, false, false⟩⟩ := by
  refine ⟨le_max_left _ _, ?_, ?_, ?_, ?_, by with_unfolding_all decide⟩
  · intro hp
    unfold overallAttendanceReply neededFor jsLtQ
    simp [hp]
  · intro hp hcons
    have hhq : (0 : ℚ) < (h : ℚ) := by exact_mod_cast hh
    have haq : (a : ℚ) < (h : ℚ) * (3/4) := by
      rw [hcons, div_lt_iff₀ hhq] at hp
      linarith
    have : (a : ℤ) < ⌈(h : ℚ) * (3/4)⌉ := by
      rw [Int.lt_ceil]
      exact_mod_cast haq
    omega
  · intro hp1 hp2
    unfold overallAttendanceReply neededFor jsLtQ
    simp [hp2, not_lt.mpr hp1]
  · intro hp
    have h75 : (75 : ℚ) ≤ p := le_trans (by norm_num) hp
    unfold overallAttendanceReply neededFor jsLtQ
    simp [not_lt.mpr hp, not_lt.mpr h75]

/-- C2 (witness): the band theorem at held 40, attended 28, percentage 70:
the needed figure is 2 and it is surfaced with the below-threshold flag. -/
theorem c2_witness :
    0 ≤ max 0 (⌈(40 : ℚ) * (3/4)⌉ - (28 : ℤ)) ∧
    overallAttendanceReply ⟨some 40, some 28, some 70, []⟩ =
      .attendanceOverall (some 70) (some 28) (some 40) .below
        (if 0 < max 0 (⌈(40 : ℚ) * (3/4)⌉ - (28 : ℤ)) then
          some (max 0 (⌈(40 : ℚ) * (3/4)⌉ - (28 : ℤ))) else none)
        (!([] : List (String × SubjectRec)).isEmpty) ∧
    0 < max 0 (⌈(40 : ℚ) * (3/4)⌉ - (28 : ℤ)) := by
  have hc := c2_attendance_thresholds 40 28 70 [] (by norm_num)
  exact ⟨hc.1, hc.2.1 (by norm_num),
    hc.2.2.1 (by norm_num) (by norm_num)⟩

/-! ### Helper lemmas for the grade-trend claim -/

theorem resolveAll_length : ∀ {l : List SemesterRecord} {s : List ℚ},
    resolveAll l = some s → s.length = l.length := by
  intro l
  induction l with
  | nil => intro s h; simp [resolveAll] at h; simp [← h]
  | cons r t ih =>
    intro s h
    unfold resolveAll at h
    cases hr : resolveScore r <;> rw [hr] at h
    · simp at h
    · cases ht : resolveAll t <;> rw [ht] at h
      · simp at h
      · simp at h
        subst h
        simp [ih ht]

theorem resolveAll_head {r : SemesterRecord} {t : List SemesterRecord}
    {s : List ℚ} (h : resolveAll (r :: t) = some s) :
    resolveScore r = some (s.headD 0) := by
  unfold resolveAll at h
  cases hr : resolveScore r <;> rw [hr] at h
  · simp at h
  · cases ht : resolveAll t <;> rw [ht] at h
    · simp at h
    · simp at h
      subst h
      simp

theorem getLastD_irrel {α : Type} (l : List α) (d1 d2 : α) (h : l ≠ []) :
    l.getLastD d1 = l.getLastD d2 := by
  obtain ⟨x, hx⟩ := Option.isSome_iff_exists.mp (List.getLast?_isSome.mpr h)
  simp [List.getLastD_eq_getLast?, hx]

theorem resolveAll_getLast : ∀ (l : List SemesterRecord) (s : List ℚ),
    resolveAll l = some s → l ≠ [] →
    resolveScore (l.getLastD mkSem) = some (s.getLastD 0)
  | [], _, _, hne => absurd rfl hne
  | [r], s, h, _ => by
    unfold resolveAll at h
    cases hr : resolveScore r <;> rw [hr] at h
    · simp at h
    · simp [resolveAll] at h
      subst h
      simpa using hr
  | r :: r2 :: t, s, h, _ => by
    unfold resolveAll at h
    cases hr : resolveScore r <;> rw [hr] at h
    · simp at h
    · cases ht : resolveAll (r2 :: t) <;> rw [ht] at h
      · simp at h
      · rename_i v vs
        simp at h
        subst h
        have hvs : vs ≠ [] := by
          have := resolveAll_length ht
          intro hemp
          rw [hemp] at this
          simp at this
        have ih := resolveAll_getLast (r2 :: t) vs ht (by simp)
        calc resolveScore ((r :: r2 :: t).getLastD mkSem)
            = resolveScore ((r2 :: t).getLastD mkSem) := by
              rw [List.getLastD_cons]
              rw [getLastD_irrel (r2 :: t) r mkSem (by simp)]
          _ = some (vs.getLastD 0) := ih
          _ = some ((v :: vs).getLastD 0) := by
              rw [List.getLastD_cons, getLastD_irrel vs v 0 hvs]

/-- C3: grade-trend classification.  For a cgpa sequence whose scores all
resolve: with more than one semester the trend branch classifies
`latest - first` by `trendBand`, whose five bands exhaust ℚ exactly at the
source's thresholds (`> 0.3` strong, `0 < d ≤ 0.3` slight, `< −0.3` drop,
`−0.3 ≤ d < 0` decline, `= 0` stable — mutually exclusive since the bands
are distinct constructors of a function's value) and whose rank is monotone
in `d`; with exactly one semester the branch reports the single score with
no trend. -/
theorem c3_trend_bands (cgpa : List SemesterRecord) (scores : List ℚ)
    (hres : resolveAll cgpa = some scores) :
    (1 < cgpa.length → academicTrendBranch cgpa =
      .ok (.academicTrend cgpa.length (scores.headD 0) (scores.getLastD 0)
        (scores.getLastD 0 - scores.headD 0)
        (trendBand (scores.getLastD 0 - scores.headD 0))
        (if cgpa.length ≤ 4 then some scores else none))) ∧
    (cgpa.length = 1 → academicTrendBranch cgpa =
      .ok (.academicTrendSingle (scores.headD 0))) ∧
    (∀ d : ℚ,
      (3/10 < d ∧ trendBand d = .strong) ∨
      (0 < d ∧ d ≤ 3/10 ∧ trendBand d = .slight) ∨
      (d < -(3/10) ∧ trendBand d = .drop) ∨
      (-(3/10) ≤ d ∧ d < 0 ∧ trendBand d = .decline) ∨
      (d = 0 ∧ trendBand d = .stable)) ∧
    (∀ d1 d2 : ℚ, d1 ≤ d2 →
      (trendBand d1).rank ≤ (trendBand d2).rank) := by
  refine ⟨?_, ?_, ?_, ?_⟩
  · intro hlen
    have hne : cgpa ≠ [] := by
      intro hemp
      rw [hemp] at hlen
      simp at hlen
    have hhead : resolveScore (cgpa.headD mkSem) = some (scores.headD 0) := by
      cases cgpa with
      | nil => exact absurd rfl hne
      | cons r t => simpa using resolveAll_head hres
    have hlast := resolveAll_getLast cgpa scores hres hne
    unfold academicTrendBranch
    rw [if_pos hlen, hhead, hlast]
    by_cases h4 : cgpa.length ≤ 4
    · simp only [if_pos h4, hres]
    · simp only [if_neg h4]
  · intro hlen
    have hne : cgpa ≠ [] := by
      intro hemp
      rw [hemp] at hlen
      simp at hlen
    have hhead : resolveScore (cgpa.headD mkSem) = some (scores.headD 0) := by
      cases cgpa with
      | nil => exact absurd rfl hne
      | cons r t => simpa using resolveAll_head hres
    unfold academicTrendBranch
    rw [if_neg (by omega), hhead]
  · intro d
    unfold trendBand
    split_ifs with h1 h2 h3 h4
    · exact Or.inl ⟨h1, rfl⟩
    · exact Or.inr (Or.inl ⟨h2, by linarith, rfl⟩)
    · exact Or.inr (Or.inr (Or.inl ⟨h3, rfl⟩))
    · exact Or.inr (Or.inr (Or.inr (Or.inl ⟨by linarith, h4, rfl⟩)))
    · exact Or.inr (Or.inr (Or.inr (Or.inr ⟨by linarith, rfl⟩)))
  · intro d1 d2 hle
    unfold trendBand
    split_ifs <;> simp [TrendBand.rank] <;> linarith

/-- C3 (witness): the trend theorem at `[{sgpa: 7.0}, {sgpa: 7.8}]`. -/
theorem c3_witness :
    academicTrendBranch
      [⟨some 7, none, none, none, none⟩, ⟨some (39/5), none, none, none, none⟩] =
      .ok (.academicTrend 2
        (([7, 39/5] : List ℚ).headD 0) (([7, 39/5] : List ℚ).getLastD 0)
        (([7, 39/5] : List ℚ).getLastD 0 - ([7, 39/5] : List ℚ).headD 0)
        (trendBand (([7, 39/5] : List ℚ).getLastD 0 - ([7, 39/5] : List ℚ).headD 0))
        (if ([⟨some 7, none, none, none, none⟩,
              ⟨some (39/5), none, none, none, none⟩] :
             List SemesterRecord).length ≤ 4 then
          some ([7, 39/5] : List ℚ) else none)) :=
  (c3_trend_bands
    [⟨some 7, none, none, none, none⟩, ⟨some (39/5), none, none, none, none⟩]
    [7, 39/5] (by with_unfolding_all decide)).1 (by decide)

/-! ### Helper lemmas for the weekly-pattern claim -/

/-- The busiest-day update in isolation (part_002 lines 242-244). -/
def stepB (bd : Option ℕ × ℕ) (p : ℕ × ℕ) : Option ℕ × ℕ :=
  if bd.2 < p.2 then (some p.1, p.2) else bd

/-- The lightest-day update in isolation (part_002 lines 246-248). -/
def stepL (ld : Option ℕ × ℕ∞) (p : ℕ × ℕ) : Option ℕ × ℕ∞ :=
  if (p.2 : ℕ∞) < ld.2 ∧ 0 < p.2 then (some p.1, (p.2 : ℕ∞)) else ld

theorem weekStep_busiest (s : WeekAnalysis) (p : ℕ × ℕ) :
    ((weekStep s p).busiestDay, (weekStep s p).busiestCount) =
      stepB (s.busiestDay, s.busiestCount) p := by
  unfold weekStep stepB
  dsimp only
  split_ifs <;> rfl

theorem weekStep_lightest (s : WeekAnalysis) (p : ℕ × ℕ) :
    ((weekStep s p).lightestDay, (weekStep s p).lightestCount) =
      stepL (s.lightestDay, s.lightestCount) p := by
  unfold weekStep stepL
  dsimp only
  split_ifs <;> rfl

theorem weekStep_total (s : WeekAnalysis) (p : ℕ × ℕ) :
    (weekStep s p).totalClasses = s.totalClasses + p.2 := by
  unfold weekStep
  dsimp only
  split_ifs <;> rfl

theorem weekStep_days (s : WeekAnalysis) (p : ℕ × ℕ) :
    (weekStep s p).daysWithClasses =
      s.daysWithClasses + (if 0 < p.2 then 1 else 0) := by
  unfold weekStep
  dsimp only
  split_ifs <;> rfl

/-- A fold projection: when `pr` maps each `f` step to a `g` step, it maps
the whole fold. -/
theorem foldl_proj {σ τ π : Type} (f : σ → π → σ) (g : τ → π → τ)
    (pr : σ → τ) (h : ∀ s p, pr (f s p) = g (pr s) p) :
    ∀ (l : List π) (s : σ), pr (l.foldl f s) = l.foldl g (pr s) := by
  intro l
  induction l with
  | nil => intro s; rfl
  | cons p t ih =>
    intro s
    rw [List.foldl_cons, List.foldl_cons, ih, h]

theorem foldl_add_snd : ∀ (l : List (ℕ × ℕ)) (n : ℕ),
    l.foldl (fun n p => n + p.2) n = n + (l.map Prod.snd).sum := by
  intro l
  induction l with
  | nil => intro n; simp
  | cons p t ih =>
    intro n
    rw [List.foldl_cons, ih]
    simp
    omega

theorem foldl_count_pos : ∀ (l : List (ℕ × ℕ)) (n : ℕ),
    l.foldl (fun n p => n + (if 0 < p.2 then 1 else 0)) n =
      n + (l.filter (fun p => decide (0 < p.2))).length := by
  intro l
  induction l with
  | nil => intro n; simp
  | cons p t ih =>
    intro n
    rw [List.foldl_cons, ih]
    by_cases hp : 0 < p.2 <;> (simp [hp]; try omega)

theorem analyze_busiestPair (tt : List (String × List ClassEntry)) :
    ((analyzeWeeklyPattern tt).busiestDay,
     (analyzeWeeklyPattern tt).busiestCount) =
      (weekPairs tt).foldl stepB (none, 0) := by
  have hproj := foldl_proj weekStep stepB
    (fun s => (s.busiestDay, s.busiestCount)) weekStep_busiest
    (weekPairs tt) initWeek
  unfold analyzeWeeklyPattern
  dsimp only
  split_ifs <;> exact hproj

theorem analyze_lightestDay (tt : List (String × List ClassEntry)) :
    (analyzeWeeklyPattern tt).lightestDay =
      (if ((weekPairs tt).foldl stepL (none, (⊤ : ℕ∞))).2 = ⊤ then none
       else ((weekPairs tt).foldl stepL (none, (⊤ : ℕ∞))).1) := by
  have hproj := foldl_proj weekStep stepL
    (fun s => (s.lightestDay, s.lightestCount)) weekStep_lightest
    (weekPairs tt) initWeek
  have h1 := congrArg Prod.fst hproj
  have h2 := congrArg Prod.snd hproj
  dsimp only at h1 h2
  rw [show initWeek.lightestDay = (none : Option Nat) from rfl,
      show initWeek.lightestCount = (Top.top : WithTop Nat) from rfl] at h1 h2
  unfold analyzeWeeklyPattern
  dsimp only
  rw [h2]
  split_ifs <;> simp [h1]

theorem analyze_total (tt : List (String × List ClassEntry)) :
    (analyzeWeeklyPattern tt).totalClasses =
      ((weekPairs tt).map Prod.snd).sum := by
  have hproj := foldl_proj weekStep (fun n p => n + p.2)
    (fun s => s.totalClasses) weekStep_total (weekPairs tt) initWeek
  have h2 := foldl_add_snd (weekPairs tt) 0
  unfold analyzeWeeklyPattern
  dsimp only
  split_ifs <;>
    (simp only [initWeek] at hproj ⊢; rw [hproj, h2]; omega)

theorem analyze_days (tt : List (String × List ClassEntry)) :
    (analyzeWeeklyPattern tt).daysWithClasses =
      ((weekPairs tt).filter (fun p => decide (0 < p.2))).length := by
  have hproj := foldl_proj weekStep
    (fun n p => n + (if 0 < p.2 then 1 else 0))
    (fun s => s.daysWithClasses) weekStep_days (weekPairs tt) initWeek
  have h2 := foldl_count_pos (weekPairs tt) 0
  unfold analyzeWeeklyPattern
  dsimp only
  split_ifs <;>
    (simp only [initWeek] at hproj ⊢; rw [hproj, h2]; omega)

theorem stepB_stay : ∀ (l : List (ℕ × ℕ)) (bd : Option ℕ × ℕ),
    (∀ p ∈ l, p.2 ≤ bd.2) → l.foldl stepB bd = bd := by
  intro l
  induction l with
  | nil => intro bd _; rfl
  | cons p t ih =>
    intro bd hall
    rw [List.foldl_cons]
    have hp : stepB bd p = bd := by
      unfold stepB
      rw [if_neg (not_lt.mpr (hall p (by simp)))]
    rw [hp]
    exact ih bd (fun q hq => hall q (by simp [hq]))

theorem stepB_hit : ∀ (l : List (ℕ × ℕ)) (bd : Option ℕ × ℕ),
    (∃ p ∈ l, bd.2 < p.2) →
    ∃ l₁ q l₂, l = l₁ ++ q :: l₂ ∧
      l.foldl stepB bd = (some q.1, q.2) ∧ bd.2 < q.2 ∧
      (∀ r ∈ l₁, r.2 < q.2) ∧ (∀ r ∈ l₂, r.2 ≤ q.2) := by
  intro l
  induction l with
  | nil => intro bd h; simp at h
  | cons p t ih =>
    intro bd hex
    by_cases hp : bd.2 < p.2
    · have hstep : stepB bd p = (some p.1, p.2) := by
        unfold stepB
        rw [if_pos hp]
      by_cases ht : ∃ r ∈ t, p.2 < r.2
      · have ht2 : ∃ r ∈ t, ((some p.1, p.2) : Option ℕ × ℕ).2 < r.2 := by
          simpa using ht
        obtain ⟨t₁, q, t₂, hteq, hfold, hq, hl₁, hl₂⟩ := ih (some p.1, p.2) ht2
        refine ⟨p :: t₁, q, t₂, by simp [hteq], ?_, ?_, ?_, hl₂⟩
        · rw [List.foldl_cons, hstep]
          exact hfold
        · exact lt_trans hp (by simpa using hq)
        · intro r hr
          rcases List.mem_cons.mp hr with hr | hr
          · subst hr
            simpa using hq
          · exact hl₁ r hr
      · push_neg at ht
        refine ⟨[], p, t, rfl, ?_, hp, by simp, ht⟩
        rw [List.foldl_cons, hstep]
        exact stepB_stay t (some p.1, p.2) (fun r hr => by simpa using ht r hr)
    · have hstep : stepB bd p = bd := by
        unfold stepB
        rw [if_neg hp]
      have hex2 : ∃ r ∈ t, bd.2 < r.2 := by
        obtain ⟨r, hr, hrgt⟩ := hex
        rcases List.mem_cons.mp hr with h | h
        · subst h
          exact absurd hrgt hp
        · exact ⟨r, h, hrgt⟩
      obtain ⟨t₁, q, t₂, hteq, hfold, hq, hl₁, hl₂⟩ := ih bd hex2
      refine ⟨p :: t₁, q, t₂, by simp [hteq], ?_, hq, ?_, hl₂⟩
      · rw [List.foldl_cons, hstep]
        exact hfold
      · intro r hr
        rcases List.mem_cons.mp hr with h | h
        · subst h
          exact lt_of_le_of_lt (not_lt.mp hp) hq
        · exact hl₁ r h

theorem stepL_stay : ∀ (l : List (ℕ × ℕ)) (ld : Option ℕ × ℕ∞),
    (∀ p ∈ l, 0 < p.2 → ld.2 ≤ (p.2 : ℕ∞)) → l.foldl stepL ld = ld := by
  intro l
  induction l with
  | nil => intro ld _; rfl
  | cons p t ih =>
    intro ld hall
    rw [List.foldl_cons]
    have hp : stepL ld p = ld := by
      unfold stepL
      rw [if_neg]
      rintro ⟨hlt, hpos⟩
      exact absurd hlt (not_lt.mpr (hall p (by simp) hpos))
    rw [hp]
    exact ih ld (fun q hq hqpos => hall q (by simp [hq]) hqpos)

theorem stepL_hit : ∀ (l : List (ℕ × ℕ)) (ld : Option ℕ × ℕ∞),
    (∃ p ∈ l, 0 < p.2 ∧ (p.2 : ℕ∞) < ld.2) →
    ∃ l₁ q l₂, l = l₁ ++ q :: l₂ ∧
      l.foldl stepL ld = (some q.1, (q.2 : ℕ∞)) ∧ 0 < q.2 ∧
      (q.2 : ℕ∞) < ld.2 ∧
      (∀ r ∈ l₁, 0 < r.2 → q.2 < r.2) ∧ (∀ r ∈ l₂, 0 < r.2 → q.2 ≤ r.2) := by
  intro l
  induction l with
  | nil => intro ld h; simp at h
  | cons p t ih =>
    intro ld hex
    by_cases hp : (p.2 : ℕ∞) < ld.2 ∧ 0 < p.2
    · have hstep : stepL ld p = (some p.1, (p.2 : ℕ∞)) := by
        unfold stepL
        rw [if_pos hp]
      by_cases ht : ∃ r ∈ t, 0 < r.2 ∧ (r.2 : ℕ∞) < (p.2 : ℕ∞)
      · obtain ⟨t₁, q, t₂, hteq, hfold, hqpos, hqlt, hl₁, hl₂⟩ :=
          ih (some p.1, (p.2 : ℕ∞)) (by simpa using ht)
        have hqlt2 : (q.2 : ℕ∞) < (p.2 : ℕ∞) := by simpa using hqlt
        have hqp : q.2 < p.2 := by exact_mod_cast hqlt2
        refine ⟨p :: t₁, q, t₂, by simp [hteq], ?_, hqpos, ?_, ?_, hl₂⟩
        · rw [List.foldl_cons, hstep]
          exact hfold
        · exact lt_trans hqlt2 hp.1
        · intro r hr hrpos
          rcases List.mem_cons.mp hr with h | h
          · subst h
            exact hqp
          · exact hl₁ r h hrpos
      · push_neg at ht
        refine ⟨[], p, t, rfl, ?_, hp.2, hp.1, by simp, ?_⟩
        · rw [List.foldl_cons, hstep]
          refine stepL_stay t (some p.1, (p.2 : ℕ∞)) ?_
          intro r hr hrpos
          have := ht r hr hrpos
          simpa using this
        · intro r hr hrpos
          exact_mod_cast ht r hr hrpos
    · have hstep : stepL ld p = ld := by
        unfold stepL
        rw [if_neg hp]
      have hex2 : ∃ r ∈ t, 0 < r.2 ∧ (r.2 : ℕ∞) < ld.2 := by
        obtain ⟨r, hr, hrpos, hrlt⟩ := hex
        rcases List.mem_cons.mp hr with h | h
        · subst h
          exact absurd ⟨hrlt, hrpos⟩ hp
        · exact ⟨r, h, hrpos, hrlt⟩
      obtain ⟨t₁, q, t₂, hteq, hfold, hqpos, hqlt, hl₁, hl₂⟩ := ih ld hex2
      refine ⟨p :: t₁, q, t₂, by simp [hteq], ?_, hqpos, hqlt, ?_, hl₂⟩
      · rw [List.foldl_cons, hstep]
        exact hfold
      · intro r hr hrpos
        rcases List.mem_cons.mp hr with hrp | hrt
        · rw [hrp] at hrpos ⊢
          have hldp : ld.2 ≤ (p.2 : ℕ∞) := by
            by_contra hcon
            exact hp ⟨lt_of_not_le hcon, hrpos⟩
          exact_mod_cast lt_of_lt_of_le hqlt hldp
        · exact hl₁ r hrt hrpos

/-- Decomposing a split of `(range n).map f`: the pivot is `f k` at its own
index `k = l₁.length`, and every earlier index lands in the prefix. -/
theorem range_map_decomp {α : Type} {n : ℕ} {f : ℕ → α} {l₁ : List α}
    {q : α} {l₂ : List α} (h : (List.range n).map f = l₁ ++ q :: l₂) :
    q = f l₁.length ∧ l₁.length < n ∧ ∀ j < l₁.length, f j ∈ l₁ := by
  have h0 := congrArg List.length h
  simp at h0
  have hk : l₁.length < n := by omega
  have htake : l₁ = (List.range l₁.length).map f := by
    have ht : ((List.range n).map f).take l₁.length = l₁ := by
      rw [h]
      exact List.take_left l₁ (q :: l₂)
    rw [← List.map_take, List.take_range,
        Nat.min_eq_left (Nat.le_of_lt hk)] at ht
    exact ht.symm
  refine ⟨?_, hk, ?_⟩
  · have e1 : ((List.range n).map f)[l₁.length]? = some (f l₁.length) := by
      simp [hk]
    rw [h, List.getElem?_append_right (le_refl l₁.length)] at e1
    simp at e1
    exact e1
  · intro j hj
    rw [htake]
    exact List.mem_map_of_mem f (List.mem_range.mpr hj)

/-- C4: invariants of `analyzeWeeklyPattern` over any 7-day timetable:
`totalClasses` is the sum of per-day counts over days 0..6;
`daysWithClasses` counts the days with a positive count; when no day has a
class, both the busiest and the lightest day are "none"; a reported busiest
day carries the maximum count and is the lowest index attaining it (ties
won by the first day of the 0..6 scan); a reported lightest day has the
minimum non-zero count; and as soon as any day has a class, both are
reported. -/
theorem c4_weekly_pattern (tt : List (String × List ClassEntry)) :
    (analyzeWeeklyPattern tt).totalClasses =
      ((List.range 7).map (fun i => (getClassesForDay tt i).length)).sum ∧
    (analyzeWeeklyPattern tt).daysWithClasses =
      ((List.range 7).filter
        (fun i => decide (0 < (getClassesForDay tt i).length))).length ∧
    ((∀ i < 7, (getClassesForDay tt i).length = 0) →
      (analyzeWeeklyPattern tt).busiestDay = none ∧
      (analyzeWeeklyPattern tt).lightestDay = none) ∧
    (∀ b, (analyzeWeeklyPattern tt).busiestDay = some b →
      b < 7 ∧ 0 < (getClassesForDay tt b).length ∧
      (analyzeWeeklyPattern tt).busiestCount = (getClassesForDay tt b).length ∧
      (∀ i < 7, (getClassesForDay tt i).length ≤ (getClassesForDay tt b).length) ∧
      (∀ j < b, (getClassesForDay tt j).length < (getClassesForDay tt b).length)) ∧
    (∀ d, (analyzeWeeklyPattern tt).lightestDay = some d →
      d < 7 ∧ 0 < (getClassesForDay tt d).length ∧
      (∀ i < 7, 0 < (getClassesForDay tt i).length →
        (getClassesForDay tt d).length ≤ (getClassesForDay tt i).length)) ∧
    ((∃ i, i < 7 ∧ 0 < (getClassesForDay tt i).length) →
      (analyzeWeeklyPattern tt).busiestDay.isSome ∧
      (analyzeWeeklyPattern tt).lightestDay.isSome) := by
  have hbp := analyze_busiestPair tt
  have hld := analyze_lightestDay tt
  have hmem : ∀ p ∈ weekPairs tt,
      ∃ i, i < 7 ∧ p = (i, (getClassesForDay tt i).length) := by
    intro p hp
    unfold weekPairs at hp
    obtain ⟨i, hi, rfl⟩ := List.mem_map.mp hp
    exact ⟨i, List.mem_range.mp hi, rfl⟩
  have hmem2 : ∀ i, i < 7 →
      (i, (getClassesForDay tt i).length) ∈ weekPairs tt := by
    intro i hi
    exact List.mem_map_of_mem _ (List.mem_range.mpr hi)
  refine ⟨?_, ?_, ?_, ?_, ?_, ?_⟩
  · rw [analyze_total tt]
    unfold weekPairs
    rw [List.map_map]
    rfl
  · rw [analyze_days tt]
    unfold weekPairs
    rw [List.filter_map, List.length_map]
    rfl
  · intro hz
    constructor
    · have hall : ∀ p ∈ weekPairs tt, p.2 ≤ ((none, 0) : Option ℕ × ℕ).2 := by
        intro p hp
        obtain ⟨i, hi, rfl⟩ := hmem p hp
        simp [hz i hi]
      have hres := hbp.trans (stepB_stay _ _ hall)
      exact congrArg Prod.fst hres
    · have hstay := stepL_stay (weekPairs tt) (none, (⊤ : ℕ∞)) ?_
      · rw [hld, hstay]
        simp
      · intro p hp hpos
        obtain ⟨i, hi, rfl⟩ := hmem p hp
        rw [hz i hi] at hpos
        exact absurd hpos (by simp)
  · intro b hb
    by_cases hzero : ∀ p ∈ weekPairs tt, p.2 ≤ ((none, 0) : Option ℕ × ℕ).2
    · exfalso
      have hres := hbp.trans (stepB_stay _ _ hzero)
      have := congrArg Prod.fst hres
      rw [hb] at this
      simp at this
    · push_neg at hzero
      obtain ⟨p, hp, hppos⟩ := hzero
      obtain ⟨l₁, q, l₂, hdec, hfold, hq0, hl₁, hl₂⟩ :=
        stepB_hit (weekPairs tt) (none, 0) ⟨p, hp, by simpa using hppos⟩
      have hpair := hbp.trans hfold
      have hday : (analyzeWeeklyPattern tt).busiestDay = some q.1 :=
        congrArg Prod.fst hpair
      have hcount : (analyzeWeeklyPattern tt).busiestCount = q.2 :=
        congrArg Prod.snd hpair
      have hbq : b = q.1 := by
        rw [hb] at hday
        exact Option.some.inj hday
      unfold weekPairs at hdec
      obtain ⟨hqf, hkn, hpre⟩ := range_map_decomp hdec
      have hq1 : q.1 = l₁.length := by rw [hqf]
      have hq2 : q.2 = (getClassesForDay tt q.1).length := by
        rw [hqf]
      subst hbq
      refine ⟨by omega, ?_, ?_, ?_, ?_⟩
      · rw [← hq2]
        simpa using hq0
      · rw [hcount, hq2]
      · intro i hi
        have hmem3 := hmem2 i hi
        rw [show weekPairs tt = l₁ ++ q :: l₂ from hdec] at hmem3
        rw [← hq2]
        rcases List.mem_append.mp hmem3 with hin | hin
        · exact le_of_lt (hl₁ _ hin)
        · rcases List.mem_cons.mp hin with heq | hin
          · rw [← heq]
          · exact hl₂ _ hin
      · intro j hj
        have hjin : (j, (getClassesForDay tt j).length) ∈ l₁ := by
          apply hpre
          omega
        have := hl₁ _ hjin
        rw [← hq2]
        simpa using this
  · intro d hd
    by_cases hzero : ∀ p ∈ weekPairs tt, 0 < p.2 →
        ((none, (⊤ : ℕ∞)) : Option ℕ × ℕ∞).2 ≤ (p.2 : ℕ∞)
    · exfalso
      have hstay := stepL_stay (weekPairs tt) (none, (⊤ : ℕ∞)) hzero
      rw [hld, hstay] at hd
      simp at hd
    · push_neg at hzero
      obtain ⟨p, hp, hppos, hptop⟩ := hzero
      have hhit : ∃ p ∈ weekPairs tt, 0 < p.2 ∧
          (p.2 : ℕ∞) < ((none, (⊤ : ℕ∞)) : Option ℕ × ℕ∞).2 := by
        exact ⟨p, hp, hppos, hptop⟩
      obtain ⟨l₁, q, l₂, hdec, hfold, hqpos, hqtop, hl₁, hl₂⟩ :=
        stepL_hit (weekPairs tt) (none, (⊤ : ℕ∞)) hhit
      rw [hfold] at hld
      have hcond : ¬ ((some q.1, (q.2 : ℕ∞)) : Option ℕ × ℕ∞).2 = ⊤ := by
        simp
      rw [if_neg hcond] at hld
      have hld2 : (analyzeWeeklyPattern tt).lightestDay = some q.1 := by
        simpa using hld
      have hdq : d = q.1 := by
        rw [hd] at hld2
        exact Option.some.inj hld2
      unfold weekPairs at hdec
      obtain ⟨hqf, hkn, hpre⟩ := range_map_decomp hdec
      have hq1 : q.1 = l₁.length := by rw [hqf]
      have hq2 : q.2 = (getClassesForDay tt q.1).length := by
        rw [hqf]
      subst hdq
      refine ⟨by omega, by rw [← hq2]; exact hqpos, ?_⟩
      intro i hi hipos
      have hmem3 := hmem2 i hi
      rw [show weekPairs tt = l₁ ++ q :: l₂ from hdec] at hmem3
      rw [← hq2]
      rcases List.mem_append.mp hmem3 with hin | hin
      · exact le_of_lt (hl₁ _ hin (by simpa using hipos))
      · rcases List.mem_cons.mp hin with heq | hin
        · rw [← heq]
        · exact hl₂ _ hin (by simpa using hipos)
  · rintro ⟨i, hi, hipos⟩
    constructor
    · obtain ⟨l₁, q, l₂, hdec, hfold, hq0, hl₁, hl₂⟩ :=
        stepB_hit (weekPairs tt) (none, 0)
          ⟨(i, (getClassesForDay tt i).length), hmem2 i hi, by simpa using hipos⟩
      have hday : (analyzeWeeklyPattern tt).busiestDay = some q.1 :=
        congrArg Prod.fst (hbp.trans hfold)
      rw [hday]
      rfl
    · obtain ⟨l₁, q, l₂, hdec, hfold, hqpos, hqtop, hl₁, hl₂⟩ :=
        stepL_hit (weekPairs tt) (none, (⊤ : ℕ∞))
          ⟨(i, (getClassesForDay tt i).length), hmem2 i hi,
           by simpa using hipos, by simp⟩
      rw [hfold] at hld
      rw [if_neg (by simp)] at hld
      rw [hld]
      rfl

/-- Computation rule for `Except.map` on a success. -/
theorem except_map_ok {α β : Type} {f : α → β} {x : α} :
    Except.map f (Except.ok x : Except String α) = .ok (f x) := rfl

/-- Computation rule for `Except.map` on an error. -/
theorem except_map_error {α β : Type} {f : α → β} {e : String} :
    Except.map f (.error e : Except String α) = .error e := rfl

/-- A class entry carrying no fields, for concrete timetables. -/
def blankClass : ClassEntry := ⟨none, none, none, none, none⟩

/-- A sample timetable: one class on Tuesday (day 1), two on Thursday
(day 3). -/
def sampleTT : List (String × List ClassEntry) :=
  [("day_1", [blankClass]), ("day_3", [blankClass, blankClass])]

/-- C4 (witness): the weekly-pattern invariants at a concrete timetable
whose busiest day is day 3. -/
theorem c4_witness :
    (analyzeWeeklyPattern sampleTT).totalClasses =
      ((List.range 7).map (fun i => (getClassesForDay sampleTT i).length)).sum ∧
    3 < 7 ∧ 0 < (getClassesForDay sampleTT 3).length ∧
    (getClassesForDay sampleTT 1).length ≤
      (getClassesForDay sampleTT 3).length := by
  have h := c4_weekly_pattern sampleTT
  have hb := h.2.2.2.1 3 (by decide)
  exact ⟨h.1, hb.1, hb.2.1, hb.2.2.2.1 1 (by decide)⟩

/-- C5 (counterexample): the claim promises a metadata block on *every*
well-formed request, but an assignments query with zero pending assignments
takes the source's early `return res.json({intent, reply})`, which carries
no metadata. -/
theorem c5_counterexample :
    respond 0 0 0 0
      ⟨"assignment", none, [], [], [], [], some emptyAttendance,
       some emptyExpenses⟩ =
      .ok ⟨.ASSIGNMENT_PLANNING, .assignmentsNone, none⟩ := by
  with_unfolding_all decide

/-- C5 (amended): every successful handler run yields the envelope with the
intent, the reply, and the metadata block — except the three no-data
early-return paths (attendance, assignments, calendar), which return intent
and reply only; and every thrown error is caught at the boundary and
converted to a 500 with intent `ERROR`, the generic apologetic reply, and
the underlying detail only in debug configuration. -/
theorem c5_envelope_and_catch (debug : Bool) (now : ℚ) (todayMs : ℤ)
    (todayIdx hour : ℕ) (b : Bundle) :
    (∀ r, respond now todayMs todayIdx hour b = .ok r →
      handleChat debug now todayMs todayIdx hour b =
        ⟨200, r.intent, r.reply, none, r.metadata⟩ ∧
      (r.metadata = some (mkMetadata now
          ((jsOrStr b.userFirstName none).getD "there") b
          ((b.assignments.map Prod.snd).sum)) ∨
       (r.metadata = none ∧
        (r.intent = .ATTENDANCE_INSIGHTS ∨ r.intent = .ASSIGNMENT_PLANNING ∨
         r.intent = .CALENDAR_MANAGEMENT)))) ∧
    (∀ e, respond now todayMs todayIdx hour b = .error e →
      handleChat debug now todayMs todayIdx hour b =
        ⟨500, .ERROR, .errorApology, if debug then some e else none, none⟩) := by
  constructor
  · intro r hr
    refine ⟨?_, ?_⟩
    · unfold handleChat
      rw [hr]
    · unfold respond at hr
      dsimp only at hr
      by_cases h1 : namePred (lowerStr b.message) = true
      · rw [if_pos h1] at hr
        simp only [Except.ok.injEq] at hr
        subst hr
        simp
      rw [if_neg h1] at hr
      by_cases h2 : expenseMonthlyPred (lowerStr b.message) = true
      · rw [if_pos h2] at hr
        simp only [Except.ok.injEq] at hr
        subst hr
        simp
      rw [if_neg h2] at hr
      by_cases h3 : expenseInsightsPred (lowerStr b.message) = true
      · rw [if_pos h3] at hr
        simp only [Except.ok.injEq] at hr
        subst hr
        simp
      rw [if_neg h3] at hr
      by_cases h4 : attendancePred (lowerStr b.message) = true
      · rw [if_pos h4] at hr
        by_cases ha : (attendanceBranch (lowerStr b.message) b.attendance).2 = true
        · rw [if_pos ha] at hr
          simp only [Except.ok.injEq] at hr
          subst hr
          simp
        · rw [if_neg ha] at hr
          simp only [Except.ok.injEq] at hr
          subst hr
          simp
      rw [if_neg h4] at hr
      by_cases h5 : academicPred (lowerStr b.message) = true
      · rw [if_pos h5] at hr
        cases hab : academicBranch (lowerStr b.message) b.cgpa with
        | ok v =>
          rw [hab, except_map_ok] at hr
          simp only [Except.ok.injEq] at hr
          subst hr
          simp
        | error e2 =>
          rw [hab, except_map_error] at hr
          exact absurd hr (by simp)
      rw [if_neg h5] at hr
      by_cases h6 : assignmentPred (lowerStr b.message) = true
      · rw [if_pos h6] at hr
        by_cases ha : (assignmentsBranch (lowerStr b.message) now
            ((b.assignments.map Prod.snd).sum) b.assignments).2 = true
        · rw [if_pos ha] at hr
          simp only [Except.ok.injEq] at hr
          subst hr
          simp
        · rw [if_neg ha] at hr
          simp only [Except.ok.injEq] at hr
          subst hr
          simp
      rw [if_neg h6] at hr
      by_cases h7 : calendarPred (lowerStr b.message) = true
      · rw [if_pos h7] at hr
        by_cases ha : (calendarBranch (lowerStr b.message) now todayMs
            b.calendarMarks).2 = true
        · rw [if_pos ha] at hr
          simp only [Except.ok.injEq] at hr
          subst hr
          simp
        · rw [if_neg ha] at hr
          simp only [Except.ok.injEq] at hr
          subst hr
          simp
      rw [if_neg h7] at hr
      by_cases h8 : timetablePred (lowerStr b.message) = true
      · rw [if_pos h8] at hr
        simp only [Except.ok.injEq] at hr
        subst hr
        simp
      rw [if_neg h8] at hr
      by_cases h9 : greetingPred (lowerStr b.message) = true
      · rw [if_pos h9] at hr
        cases hgb : greetingBranch hour b.timetable todayIdx
            ((b.assignments.map Prod.snd).sum) b.attendance b.expenses with
        | ok v =>
          rw [hgb, except_map_ok] at hr
          simp only [Except.ok.injEq] at hr
          subst hr
          simp
        | error e2 =>
          rw [hgb, except_map_error] at hr
          exact absurd hr (by simp)
      rw [if_neg h9] at hr
      by_cases h10 : gratitudePred (lowerStr b.message) = true
      · rw [if_pos h10] at hr
        simp only [Except.ok.injEq] at hr
        subst hr
        simp
      rw [if_neg h10] at hr
      simp only [Except.ok.injEq] at hr
      subst hr
      simp
  · intro e he
    unfold handleChat
    rw [he]

/-- C5 (witness): the amended claim applied at two concrete bundles — a
guidance query producing the full envelope, and an academic query whose
semester record resolves to no score, which throws and is converted to the
`ERROR` apology with no detail outside debug mode. -/
theorem c5_witness :
    handleChat false 0 0 0 0
      ⟨"zzz", none, [], [], [], [], some emptyAttendance, some emptyExpenses⟩ =
      ⟨200, .GUIDANCE, .guidance, none,
       some ⟨0, "there", false, false, false, false, false, false⟩⟩ ∧
    handleChat false 0 0 0 0
      ⟨"gpa", none, [], [], [mkSem], [], some emptyAttendance,
       some emptyExpenses⟩ =
      ⟨500, .ERROR, .errorApology, none, none⟩ := by
  constructor
  · have h := (c5_envelope_and_catch false 0 0 0 0
      ⟨"zzz", none, [], [], [], [], some emptyAttendance,
       some emptyExpenses⟩).1
      ⟨.GUIDANCE, .guidance,
       some ⟨0, "there", false, false, false, false, false, false⟩⟩
      (by with_unfolding_all decide)
    exact h.1
  · have h := (c5_envelope_and_catch false 0 0 0 0
      ⟨"gpa", none, [], [], [mkSem], [], some emptyAttendance,
       some emptyExpenses⟩).2 "TypeError" (by with_unfolding_all decide)
    simpa using h
